import Mathlib

/-!
# Verification of the pdsa chat message-queue pipeline

Shallow embedding of the queueing components of the repository:

* `PriorityMessageQueue` (src/priority_queue.py): a min-heap of
  `(priority, counter, message)` triples with a monotone insertion counter.
* `BatchQueue` (src/ChatServer1/models/batch_queue.py): size/time triggered
  batch release decision.
* `RetryQueue` (src/retry_queue.py and src/ChatServer1/models/retry_queue.py):
  exponential backoff with jitter, per-ticket retry lifecycle.
* `OfflineQueue` (src/ChatServer1/models/offline_queue.py): bounded per-user
  mailboxes with expiry, drain on reconnect, preview, config update.

Machine integers do not appear (Python ints are unbounded, modelled by `ℤ`/`ℕ`;
Python float timestamps and delays are modelled by `ℚ`).
-/

namespace Pdsa

/-! ## Priority queue (src/priority_queue.py)

`add_message` pushes `(priority, self.message_counter, message_obj)` onto a
`heapq` min-heap after incrementing `message_counter`; `get_next_message` pops
the smallest tuple.  Since every pushed tuple carries a distinct counter,
Python never compares the third components, and `heapq`'s contract is exactly
"pop the least element under lexicographic tuple order".  We model the heap by
its contents (a list of `(priority, counter)` pairs) and `heappop` by removal
of the least element under that order. -/

/-- A heap element as pushed by `PriorityMessageQueue.add_message`:
`(priority, message_counter)`.  The priority is an `ℤ` because a manual
priority is accepted as an arbitrary `int`. -/
abbrev PMsg : Type := ℤ × ℕ

/-- Python tuple comparison `(p₁, c₁) <= (p₂, c₂)` restricted to the first two
components (the counters of distinct pushes are distinct, so the comparison
never reaches the message object). -/
def tupleLe (a b : PMsg) : Bool :=
  decide (a.1 < b.1) || (decide (a.1 = b.1) && decide (a.2 ≤ b.2))

/-- `heapq.heappop`: remove and return the least element of the heap.
Returns `none` on an empty heap (the code returns `None` for an empty queue). -/
def popMin : List PMsg → Option (PMsg × List PMsg)
  | [] => none
  | a :: l =>
    match popMin l with
    | none => some (a, [])
    | some (m, l') => if tupleLe a m then some (a, l) else some (m, a :: l')

/-- The state of `PriorityMessageQueue` relevant to ordering: the heap contents
and the monotone `message_counter`. -/
structure PQState where
  queue : List PMsg
  messageCounter : ℕ

/-- `PriorityMessageQueue.add_message`: increment `message_counter`, then push
`(priority, message_counter)` onto the heap. -/
def add_message (s : PQState) (priority : ℤ) : PQState :=
  { queue := s.queue ++ [(priority, s.messageCounter + 1)]
    messageCounter := s.messageCounter + 1 }

/-- A whole sequence of `add_message` calls on a fresh queue. -/
def addAll (ps : List ℤ) : PQState :=
  ps.foldl add_message ⟨[], 0⟩

/-- Repeated `get_next_message` calls, fuelled by the queue length. -/
def drainFuel : ℕ → List PMsg → List PMsg
  | 0, _ => []
  | n + 1, q =>
    match popMin q with
    | none => []
    | some (m, q') => m :: drainFuel n q'

/-- Call `get_next_message` until the queue is empty, collecting the results. -/
def drainAll (q : List PMsg) : List PMsg :=
  drainFuel q.length q

theorem tupleLe_refl (a : PMsg) : tupleLe a a = true := by
  simp [tupleLe]

theorem tupleLe_trans {a b c : PMsg} (hab : tupleLe a b = true)
    (hbc : tupleLe b c = true) : tupleLe a c = true := by
  simp only [tupleLe, Bool.or_eq_true, Bool.and_eq_true, decide_eq_true_eq] at *
  rcases hab with h₁ | ⟨h₁, h₂⟩ <;> rcases hbc with h₃ | ⟨h₃, h₄⟩
  · exact Or.inl (h₁.trans h₃)
  · exact Or.inl (h₃ ▸ h₁)
  · exact Or.inl (h₁ ▸ h₃)
  · exact Or.inr ⟨h₁.trans h₃, h₂.trans h₄⟩

theorem tupleLe_total {a b : PMsg} (h : tupleLe a b = false) :
    tupleLe b a = true := by
  simp only [tupleLe, Bool.or_eq_false_iff, Bool.and_eq_false_iff,
    decide_eq_false_iff_not, Bool.or_eq_true, Bool.and_eq_true,
    decide_eq_true_eq] at *
  obtain ⟨h₁, h₂⟩ := h
  rcases lt_trichotomy a.1 b.1 with h | h | h
  · exact absurd h h₁
  · rcases h₂ with h₂ | h₂
    · exact absurd h h₂
    · exact Or.inr ⟨h.symm, le_of_not_le h₂⟩
  · exact Or.inl h

theorem popMin_eq_none {q : List PMsg} (h : popMin q = none) : q = [] := by
  cases q with
  | nil => rfl
  | cons a l =>
    rcases hl : popMin l with _ | ⟨m, l'⟩
    · simp [popMin, hl] at h
    · by_cases hle : tupleLe a m = true <;> simp [popMin, hl, hle] at h

theorem popMin_perm {q : List PMsg} {m : PMsg} {q' : List PMsg}
    (h : popMin q = some (m, q')) : q.Perm (m :: q') := by
  induction q generalizing m q' with
  | nil => simp [popMin] at h
  | cons a l ih =>
    rcases hl : popMin l with _ | ⟨m₀, l₀⟩
    · obtain rfl : l = [] := popMin_eq_none hl
      simp only [popMin, Option.some.injEq, Prod.mk.injEq] at h
      obtain ⟨rfl, rfl⟩ := h
      rfl
    · have hperm := ih hl
      by_cases hle : tupleLe a m₀ = true <;>
        simp only [popMin, hl, hle, if_true, if_false, Bool.false_eq_true,
          Option.some.injEq, Prod.mk.injEq] at h <;>
        obtain ⟨rfl, rfl⟩ := h
      · rfl
      · exact (hperm.cons a).trans (List.Perm.swap m₀ a l₀)

theorem popMin_le {q : List PMsg} {m : PMsg} {q' : List PMsg}
    (h : popMin q = some (m, q')) : ∀ x ∈ q, tupleLe m x = true := by
  induction q generalizing m q' with
  | nil => simp [popMin] at h
  | cons a l ih =>
    rcases hl : popMin l with _ | ⟨m₀, l₀⟩
    · obtain rfl : l = [] := popMin_eq_none hl
      simp only [popMin, Option.some.injEq, Prod.mk.injEq] at h
      obtain ⟨rfl, rfl⟩ := h
      intro x hx
      simp only [List.mem_singleton] at hx
      exact hx ▸ tupleLe_refl a
    · have hmin := ih hl
      by_cases hle : tupleLe a m₀ = true <;>
        simp only [popMin, hl, hle, if_true, if_false, Bool.false_eq_true,
          Option.some.injEq, Prod.mk.injEq] at h <;>
        obtain ⟨rfl, rfl⟩ := h
      · intro x hx
        rcases List.mem_cons.mp hx with rfl | hx
        · exact tupleLe_refl x
        · exact tupleLe_trans hle (hmin x hx)
      · intro x hx
        rcases List.mem_cons.mp hx with rfl | hx
        · exact tupleLe_total (Bool.eq_false_iff.mpr hle)
        · exact hmin x hx

theorem drainFuel_subset {n : ℕ} {q : List PMsg} :
    ∀ x ∈ drainFuel n q, x ∈ q := by
  induction n generalizing q with
  | zero => simp [drainFuel]
  | succ n ih =>
    intro x hx
    simp only [drainFuel] at hx
    rcases hq : popMin q with _ | ⟨m, q'⟩ <;> rw [hq] at hx
    · simp at hx
    · have hperm := popMin_perm hq
      rcases List.mem_cons.mp hx with rfl | hx
      · exact hperm.mem_iff.mpr (List.mem_cons_self x q')
      · exact hperm.mem_iff.mpr (List.mem_cons_of_mem m (ih x hx))

theorem drainFuel_sorted (n : ℕ) (q : List PMsg) :
    List.Pairwise (fun a b => tupleLe a b = true) (drainFuel n q) := by
  induction n generalizing q with
  | zero => simp [drainFuel]
  | succ n ih =>
    simp only [drainFuel]
    rcases hq : popMin q with _ | ⟨m, q'⟩
    · exact List.Pairwise.nil
    · refine List.Pairwise.cons ?_ (ih q')
      intro x hx
      exact popMin_le hq x ((popMin_perm hq).mem_iff.mpr
        (List.mem_cons_of_mem m (drainFuel_subset x hx)))

theorem drainFuel_perm {n : ℕ} {q : List PMsg} (h : q.length ≤ n) :
    (drainFuel n q).Perm q := by
  induction n generalizing q with
  | zero =>
    have : q = [] := List.length_eq_zero.mp (Nat.le_zero.mp h)
    simp [this, drainFuel]
  | succ n ih =>
    simp only [drainFuel]
    rcases hq : popMin q with _ | ⟨m, q'⟩
    · simp [popMin_eq_none hq]
    · have hperm := popMin_perm hq
      have hlen : q'.length ≤ n := by
        have := hperm.length_eq
        simp only [List.length_cons] at this
        omega
      exact ((ih hlen).cons m).trans hperm.symm

theorem drainAll_perm (q : List PMsg) : (drainAll q).Perm q :=
  drainFuel_perm le_rfl

/-- The counters stored by a run of `add_message` calls are the consecutive
integers following the starting counter. -/
theorem foldl_add_message_counters (ps : List ℤ) (s : PQState) :
    (ps.foldl add_message s).queue.map Prod.snd
      = s.queue.map Prod.snd ++ List.range' (s.messageCounter + 1) ps.length := by
  induction ps generalizing s with
  | nil => simp
  | cons p ps ih =>
    simp only [List.foldl_cons, List.length_cons, ih, add_message,
      List.map_append, List.map_cons, List.map_nil]
    rw [List.range'_succ]
    simp

theorem addAll_counters (ps : List ℤ) :
    (addAll ps).queue.map Prod.snd = List.range' 1 ps.length := by
  simpa [addAll] using foldl_add_message_counters ps ⟨[], 0⟩

theorem addAll_counters_distinct (ps : List ℤ) :
    List.Pairwise (fun a b : PMsg => a.2 ≠ b.2) (addAll ps).queue := by
  have h : ((addAll ps).queue.map Prod.snd).Nodup := by
    rw [addAll_counters]
    exact List.nodup_range' _ _
  exact (List.pairwise_map.mp h)

/-- C1: for every sequence of `add_message` calls followed by repeated
`get_next_message` calls on a fresh `PriorityMessageQueue`, the returned
messages have non-decreasing priority tier, and messages of equal tier come
out in strictly increasing insertion-counter order, i.e. in the order they
were added (stratified FIFO). -/
theorem priority_queue_stratified_fifo (ps : List ℤ) :
    List.Pairwise (fun a b : PMsg => a.1 ≤ b.1) (drainAll (addAll ps).queue) ∧
    List.Pairwise (fun a b : PMsg => a.1 = b.1 → a.2 < b.2)
      (drainAll (addAll ps).queue) := by
  have hsorted := drainFuel_sorted (addAll ps).queue.length (addAll ps).queue
  have hperm := drainAll_perm (addAll ps).queue
  have hne : List.Pairwise (fun a b : PMsg => a.2 ≠ b.2)
      (drainAll (addAll ps).queue) := by
    exact (hperm.pairwise_iff (fun h => Ne.symm h)).mpr
      (addAll_counters_distinct ps)
  have hdrain : List.Pairwise (fun a b : PMsg => tupleLe a b = true)
      (drainAll (addAll ps).queue) := hsorted
  constructor
  · refine hdrain.imp ?_
    intro a b hab
    simp only [tupleLe, Bool.or_eq_true, Bool.and_eq_true,
      decide_eq_true_eq] at hab
    rcases hab with h | ⟨h, _⟩
    · exact le_of_lt h
    · exact le_of_eq h
  · refine (hdrain.and hne).imp ?_
    intro a b ⟨hab, hne2⟩ heq
    simp only [tupleLe, Bool.or_eq_true, Bool.and_eq_true,
      decide_eq_true_eq] at hab
    rcases hab with h | ⟨_, h⟩
    · exact absurd heq (ne_of_lt h)
    · exact lt_of_le_of_ne h hne2

/-! ## Batch queue (src/ChatServer1/models/batch_queue.py)

`BatchQueue._batch_processor` (lines 96-144) fills `current_batch` up to
`max_batch_size` and then decides whether to release it; `force_send_batch`
(lines 190-218) releases a non-empty batch unconditionally.  The release
decision depends only on the current batch size, the elapsed wait
`time.time() - batch_start_time`, and the configuration, so we embed it as a
pure decision function.  Sizes are `ℤ` (Python ints), times are `ℚ`. -/

/-- The `BatchQueue` configuration fields the release decision reads. -/
structure BatchQueueCfg where
  minBatchSize : ℤ
  maxBatchSize : ℤ
  maxWaitTime : ℚ

/-- The `send_reason` strings produced by `_batch_processor`. -/
inductive SendReason where
  | maxSizeReached
  | maxWaitTimeReached
  | extendedWaitTimeout
deriving DecidableEq, Repr

/-- The `should_send`/`send_reason` computation of `_batch_processor`
(batch_queue.py lines 119-135): release at `max_batch_size`; at
`min_batch_size` once `max_wait_time` has elapsed; any non-empty batch once
`max_wait_time * 2` has elapsed.  (`batch_start_time` is set whenever
`current_batch` is non-empty, so the third guard reduces to `0 < size`.) -/
def batch_processor_should_send (cfg : BatchQueueCfg) (size : ℤ) (elapsed : ℚ) :
    Option SendReason :=
  if size ≥ cfg.maxBatchSize then some .maxSizeReached
  else if size ≥ cfg.minBatchSize then
    if elapsed ≥ cfg.maxWaitTime then some .maxWaitTimeReached else none
  else if 0 < size then
    if elapsed ≥ cfg.maxWaitTime * 2 then some .extendedWaitTimeout else none
  else none

/-- `BatchQueue.force_send_batch`: a forced release happens exactly when the
current batch is non-empty (`if self.current_batch:`). -/
def force_send_batch_releases (size : ℤ) : Bool :=
  decide (0 < size)

/-! The other batching variant, `BatchQueue` of src/batch_queue.py, has no
extended-wait release.  `enqueue` (lines 64-98) appends to
`pending_messages`, sends immediately when `len >= max_batch_size`
(`_send_batch_now`, which also cancels the timer), and starts a
`threading.Timer(timeout_seconds, self._timeout_batch_send)` only when the
appended message is the first one.  `_timeout_batch_send` (lines 100-117)
runs when that one-shot timer fires, i.e. `timeout_seconds` after the batch
started: it sends only when `len(pending_messages) >= min_batch_size`;
otherwise it just prints, and nothing in it (or anywhere else) restarts the
timer, so a too-small batch is left pending with no scheduled event.  We
embed this variant's state as the pending count, whether a timer is
scheduled and not yet fired, and the sizes of the batches sent so far. -/

/-- State of the simple `BatchQueue` of src/batch_queue.py: the length of
`pending_messages`, whether a `threading.Timer` is scheduled and has not yet
fired, and the sizes of the batches released so far, in order. -/
structure SimpleBatchState where
  pendingMessages : ℕ
  timerArmed : Bool
  releases : List ℕ
deriving DecidableEq, Repr

/-- `BatchQueue._send_batch_now` (lines 119-161): return unchanged when
nothing is pending; otherwise record the batch, clear `pending_messages` and
cancel the timer. -/
def simple_send_batch_now (s : SimpleBatchState) : SimpleBatchState :=
  if s.pendingMessages = 0 then s
  else ⟨0, false, s.releases ++ [s.pendingMessages]⟩

/-- `BatchQueue.enqueue` (lines 64-98): append the message; send immediately
when `len(pending_messages) >= max_batch_size`; start the timeout timer when
this is the first message of the batch. -/
def simple_enqueue (maxBatchSize : ℤ) (s : SimpleBatchState) :
    SimpleBatchState :=
  let p := s.pendingMessages + 1
  if (p : ℤ) ≥ maxBatchSize then simple_send_batch_now ⟨p, s.timerArmed, s.releases⟩
  else if p = 1 then ⟨p, true, s.releases⟩
  else ⟨p, s.timerArmed, s.releases⟩

/-- `BatchQueue._timeout_batch_send` (lines 100-117): the one-shot timer
fires (and is spent — `threading.Timer` runs once and this handler never
restarts it); the pending batch is sent only when it is non-empty and has
reached `min_batch_size`, otherwise the handler only logs. -/
def simple_timeout_batch_send (minBatchSize : ℤ) (s : SimpleBatchState) :
    SimpleBatchState :=
  if 0 < s.pendingMessages ∧ (s.pendingMessages : ℤ) ≥ minBatchSize then
    simple_send_batch_now ⟨s.pendingMessages, false, s.releases⟩
  else ⟨s.pendingMessages, false, s.releases⟩

/-- C2 counterexample, against the claim's cited source src/batch_queue.py
(`min_batch_size = 5`, `max_batch_size = 50`, `timeout_seconds = 2`): enqueue
three messages at time 0 and then stay idle.  The complete event sequence the
code produces is the three `enqueue` calls followed by the single timer fire
at elapsed `2 = maxWaitTime`; the fire does not release (3 < 5) and leaves
the timer spent, so the final state still holds the 3 pending messages, has
no timer scheduled, and has released nothing.  Hence no batch release is ever
triggered, although from elapsed `4 = 2 × maxWaitTime` on the claim's
condition `size > 0 ∧ elapsed ≥ 2 × maxWaitTime` holds (last conjunct): the
claimed biconditional is false for this variant. -/
theorem simple_batch_small_batch_never_released :
    (simple_timeout_batch_send 5
        (simple_enqueue 50 (simple_enqueue 50 (simple_enqueue 50
          ⟨0, false, []⟩)))).releases = []
    ∧ (simple_timeout_batch_send 5
        (simple_enqueue 50 (simple_enqueue 50 (simple_enqueue 50
          ⟨0, false, []⟩)))).pendingMessages = 3
    ∧ (simple_timeout_batch_send 5
        (simple_enqueue 50 (simple_enqueue 50 (simple_enqueue 50
          ⟨0, false, []⟩)))).timerArmed = false
    ∧ ((0 : ℤ) < 3 ∧ 2 * (2 : ℚ) ≤ 4) :=
  ⟨by decide, by decide, by decide, by decide, by norm_num⟩

/-- C2 amended: for the ChatServer1 `BatchQueue` (`_batch_processor` and
`force_send_batch`), with a non-empty pending batch (the processor only forms
batches of size `1 ≤ size ≤ max_batch_size`) and a non-negative elapsed wait,
a batch release is triggered if and only if the size equals `max_batch_size`,
or the size is at least `min_batch_size` and the wait reached
`max_wait_time`, or the batch is non-empty and the wait reached
`2 × max_wait_time`, or the release is forced; in particular a non-empty
batch smaller than `min_batch_size` is released once `2 × max_wait_time` has
elapsed.  (The simple src/batch_queue.py variant satisfies no such
biconditional: per the counterexample, its one-shot timer never releases a
non-empty batch smaller than `min_batch_size`, however long it waits.) -/
theorem batch_release_iff (cfg : BatchQueueCfg) (size : ℤ) (elapsed : ℚ)
    (forced : Bool) (hpos : 0 < size) (hmax : size ≤ cfg.maxBatchSize)
    (helapsed : 0 ≤ elapsed) :
    (if forced then force_send_batch_releases size
      else (batch_processor_should_send cfg size elapsed).isSome) = true
      ↔ (size = cfg.maxBatchSize
          ∨ (cfg.minBatchSize ≤ size ∧ cfg.maxWaitTime ≤ elapsed)
          ∨ (0 < size ∧ 2 * cfg.maxWaitTime ≤ elapsed)
          ∨ forced = true) := by
  have htwo : cfg.maxWaitTime * 2 ≤ elapsed ↔ 2 * cfg.maxWaitTime ≤ elapsed := by
    rw [mul_comm]
  have hwait_of_two : 2 * cfg.maxWaitTime ≤ elapsed → cfg.maxWaitTime ≤ elapsed := by
    intro h
    rcases le_or_lt 0 cfg.maxWaitTime with hw | hw <;> linarith
  cases forced with
  | true =>
    simp only [if_true, force_send_batch_releases, decide_eq_true_eq]
    constructor
    · intro _
      exact Or.inr (Or.inr (Or.inr trivial))
    · intro _
      exact hpos
  | false =>
    simp only [if_false, Bool.false_eq_true, or_false]
    unfold batch_processor_should_send
    by_cases h1 : size ≥ cfg.maxBatchSize
    · rw [if_pos h1]
      simp only [Option.isSome_some, true_iff]
      exact Or.inl (le_antisymm hmax h1)
    · rw [if_neg h1]
      by_cases h2 : size ≥ cfg.minBatchSize
      · rw [if_pos h2]
        by_cases h3 : elapsed ≥ cfg.maxWaitTime
        · rw [if_pos h3]
          simp only [Option.isSome_some, true_iff]
          exact Or.inr (Or.inl ⟨h2, h3⟩)
        · rw [if_neg h3]
          simp only [Option.isSome_none, Bool.false_eq_true, false_iff]
          rintro (h | ⟨_, h⟩ | ⟨_, h⟩)
          · exact h1 (le_of_eq h.symm)
          · exact h3 h
          · exact h3 (hwait_of_two h)
      · rw [if_neg h2, if_pos hpos]
        by_cases h5 : elapsed ≥ cfg.maxWaitTime * 2
        · rw [if_pos h5]
          simp only [Option.isSome_some, true_iff]
          exact Or.inr (Or.inr ⟨hpos, htwo.mp h5⟩)
        · rw [if_neg h5]
          simp only [Option.isSome_none, Bool.false_eq_true, false_iff]
          rintro (h | ⟨h, _⟩ | ⟨_, h⟩)
          · exact h1 (le_of_eq h.symm)
          · exact h2 h
          · exact h5 (htwo.mpr h)

/-- Witness for C2 at `min=5, max=50, maxWait=2`, a batch of 3 messages, and
4 seconds elapsed: the extended-wait trigger fires. -/
theorem batch_release_iff_witness :
    ((0 : ℤ) < 3 ∧ (3 : ℤ) ≤ (50 : ℤ) ∧ (0 : ℚ) ≤ 4) ∧
    ((if false then force_send_batch_releases 3
        else (batch_processor_should_send ⟨5, 50, 2⟩ 3 4).isSome) = true
      ↔ ((3 : ℤ) = 50
          ∨ ((5 : ℤ) ≤ 3 ∧ (2 : ℚ) ≤ 4)
          ∨ ((0 : ℤ) < 3 ∧ 2 * (2 : ℚ) ≤ 4)
          ∨ false = true)) :=
  ⟨⟨by norm_num, by norm_num, by norm_num⟩,
    batch_release_iff ⟨5, 50, 2⟩ 3 4 false (by norm_num) (by norm_num)
      (by norm_num)⟩

/-! ## Retry backoff (src/retry_queue.py and src/ChatServer1/models/retry_queue.py)

`RetryMessage.calculate_next_retry` (src/retry_queue.py lines 37-46):
`delay = min(base_delay * 2 ** attempt_count, max_delay)`, then
`jitter = random.uniform(0.1, 0.5) * delay` and the message is scheduled
`delay + jitter` seconds ahead.  The random jitter factor is modelled by an
explicit parameter `j` ranging over `[1/10, 1/2]`.

`RetryQueue._calculate_backoff_delay` (ChatServer1 retry_queue.py lines
233-244): `min(initial_delay * backoff_multiplier ** (retry_count - 1),
max_delay)`, with no jitter. -/

/-- The pre-jitter delay of `RetryMessage.calculate_next_retry`:
`delay = min(base_delay * (2 ** self.attempt_count), max_delay)`. -/
def calculate_next_retry_delay (baseDelay maxDelay : ℚ) (attemptCount : ℕ) : ℚ :=
  min (baseDelay * 2 ^ attemptCount) maxDelay

/-- The full scheduled wait of `RetryMessage.calculate_next_retry`:
`delay + jitter` where `jitter = j * delay` and
`j = random.uniform(0.1, 0.5)` is the sampled jitter factor. -/
def calculate_next_retry_jittered (baseDelay maxDelay j : ℚ)
    (attemptCount : ℕ) : ℚ :=
  calculate_next_retry_delay baseDelay maxDelay attemptCount
    + j * calculate_next_retry_delay baseDelay maxDelay attemptCount

/-- `RetryQueue._calculate_backoff_delay` of the ChatServer1 variant:
`min(self.initial_delay * (self.backoff_multiplier ** (retry_count - 1)),
self.max_delay)`. -/
def calculate_backoff_delay (initialDelay backoffMultiplier maxDelay : ℚ)
    (retryCount : ℕ) : ℚ :=
  min (initialDelay * backoffMultiplier ^ (retryCount - 1)) maxDelay

/-- C3 counterexample: with `base_delay = 1`, `max_delay = 1` and the smallest
possible jitter factor `0.1`, the wait scheduled for the first attempt
(`attempt_count = 0`) is `1.1`, which exceeds `max_delay`; so the delay
including jitter is not capped at `maxDelay`. -/
theorem retry_jitter_exceeds_max_delay :
    ¬ calculate_next_retry_jittered 1 1 (1 / 10) 0 ≤ 1 := by
  norm_num [calculate_next_retry_jittered, calculate_next_retry_delay]

/-- C3 amended: for every attempt `k ≥ 1` the pre-jitter delay follows
`min(baseDelay * multiplier ^ (k - 1), maxDelay)` (with multiplier 2 in
src/retry_queue.py, where attempt `k` computes the delay with
`attempt_count = k - 1`), is monotonically non-decreasing in `k` and never
exceeds `maxDelay`; the uniform jitter of 10-50% of the delay is added on top
of the capped value, so the scheduled wait may exceed `maxDelay`, but by no
more than half of it. -/
theorem retry_backoff_monotone_capped (base mult maxD : ℚ) (k : ℕ)
    (hbase : 0 ≤ base) (hmult : 1 ≤ mult) (hmax : 0 ≤ maxD) (hk : 1 ≤ k) :
    (calculate_backoff_delay base mult maxD k
        ≤ calculate_backoff_delay base mult maxD (k + 1)
      ∧ calculate_backoff_delay base mult maxD k ≤ maxD)
    ∧ (calculate_next_retry_delay base maxD (k - 1)
        ≤ calculate_next_retry_delay base maxD k
      ∧ calculate_next_retry_delay base maxD (k - 1) ≤ maxD)
    ∧ (∀ j : ℚ, 1 / 10 ≤ j → j ≤ 1 / 2 →
        calculate_next_retry_jittered base maxD j (k - 1)
          ≤ maxD + maxD / 2) := by
  have hpow : ∀ m n : ℕ, m ≤ n → (mult : ℚ) ^ m ≤ mult ^ n := by
    intro m n hmn
    exact pow_le_pow_right₀ hmult hmn
  have htwo : ∀ m n : ℕ, m ≤ n → (2 : ℚ) ^ m ≤ 2 ^ n := by
    intro m n hmn
    exact pow_le_pow_right₀ (by norm_num) hmn
  refine ⟨⟨?_, ?_⟩, ⟨?_, ?_⟩, ?_⟩
  · exact min_le_min
      (mul_le_mul_of_nonneg_left (hpow _ _ (by omega)) hbase) le_rfl
  · exact min_le_right _ _
  · exact min_le_min
      (mul_le_mul_of_nonneg_left (htwo _ _ (by omega)) hbase) le_rfl
  · exact min_le_right _ _
  · intro j hj₁ hj₂
    have hd₀ : 0 ≤ calculate_next_retry_delay base maxD (k - 1) :=
      le_min (mul_nonneg hbase (by positivity)) hmax
    have hd₁ : calculate_next_retry_delay base maxD (k - 1) ≤ maxD :=
      min_le_right _ _
    have hj₀ : (0 : ℚ) ≤ j := le_trans (by norm_num) hj₁
    unfold calculate_next_retry_jittered
    have : j * calculate_next_retry_delay base maxD (k - 1) ≤ (1 / 2) * maxD :=
      mul_le_mul hj₂ hd₁ hd₀ (by norm_num)
    linarith

/-- Witness for C3's amended theorem at `base = 1`, `mult = 2`, `max = 60`,
`k = 1`. -/
theorem retry_backoff_monotone_capped_witness :
    ((0 : ℚ) ≤ 1 ∧ (1 : ℚ) ≤ 2 ∧ (0 : ℚ) ≤ 60 ∧ 1 ≤ 1)
    ∧ ((calculate_backoff_delay 1 2 60 1 ≤ calculate_backoff_delay 1 2 60 2
          ∧ calculate_backoff_delay 1 2 60 1 ≤ 60)
        ∧ (calculate_next_retry_delay 1 60 0 ≤ calculate_next_retry_delay 1 60 1
          ∧ calculate_next_retry_delay 1 60 0 ≤ 60)
        ∧ (∀ j : ℚ, 1 / 10 ≤ j → j ≤ 1 / 2 →
            calculate_next_retry_jittered 1 60 j 0 ≤ 60 + 60 / 2)) :=
  ⟨⟨by norm_num, by norm_num, by norm_num, le_rfl⟩,
    retry_backoff_monotone_capped 1 2 60 1 (by norm_num) (by norm_num)
      (by norm_num) le_rfl⟩

/-! ## Retry ticket lifecycle (src/ChatServer1/models/retry_queue.py and
src/retry_queue.py)

`RetryQueue._attempt_retry` (ChatServer1 retry_queue.py lines 161-231)
increments `retry_count`, attempts delivery, and then either finishes
successfully (invoking the success callback), abandons the entry when
`retry_count >= max_retries` (invoking the failure callback and dropping the
entry from every queue), or re-appends the entry to `waiting_deque` for the
next attempt.  `RetryQueue.add_retry_failure` of src/retry_queue.py (lines
159-198) applies the same transition to a `RetryMessage`
(`attempt_count += 1`; abandon and move to `completed_messages` when
`attempt_count >= max_retries`, otherwise reschedule as `PENDING`).

A ticket in a terminal state is in neither `waiting_deque` nor `retry_deque`
(respectively has left `retry_queue` for `completed_messages`), so the
processor never attempts it again: terminal states are absorbing. -/

/-- The lifecycle state of one retry ticket, carrying its attempt count. -/
inductive TicketState where
  | waiting (retryCount : ℕ)
  | succeeded (retryCount : ℕ)
  | abandoned (retryCount : ℕ)
deriving DecidableEq, Repr

/-- Whether the ticket has reached a terminal state. -/
def TicketState.isTerminal : TicketState → Bool
  | .waiting _ => false
  | .succeeded _ => true
  | .abandoned _ => true

/-- The attempt count recorded in the ticket. -/
def TicketState.count : TicketState → ℕ
  | .waiting c => c
  | .succeeded c => c
  | .abandoned c => c

/-- One call of `_attempt_retry` on a queued ticket, with `outcome` the result
of the delivery attempt.  Terminal tickets are absorbing (they are queued
nowhere, so `_attempt_retry` is never reached for them). -/
def attempt_retry (maxRetries : ℕ) : TicketState → Bool → TicketState
  | .waiting c, true => .succeeded (c + 1)
  | .waiting c, false =>
    if c + 1 ≥ maxRetries then .abandoned (c + 1) else .waiting (c + 1)
  | s, _ => s

/-- Whether this call of `_attempt_retry` invokes the permanent-failure
(abandonment) callback. -/
def attempt_retry_fires (maxRetries : ℕ) : TicketState → Bool → Bool
  | .waiting c, false => decide (c + 1 ≥ maxRetries)
  | _, _ => false

/-- The ticket state after a sequence of delivery-attempt outcomes. -/
def runTicket (maxRetries : ℕ) (s : TicketState) : List Bool → TicketState
  | [] => s
  | o :: os => runTicket maxRetries (attempt_retry maxRetries s o) os

/-- How many times the failure (abandonment) callback fires along a sequence
of delivery-attempt outcomes. -/
def countFailureCallbacks (maxRetries : ℕ) (s : TicketState) :
    List Bool → ℕ
  | [] => 0
  | o :: os =>
    (if attempt_retry_fires maxRetries s o then 1 else 0)
      + countFailureCallbacks maxRetries (attempt_retry maxRetries s o) os

theorem attempt_retry_terminal {m : ℕ} {s : TicketState} (h : s.isTerminal = true)
    (o : Bool) : attempt_retry m s o = s := by
  cases s with
  | waiting c => simp [TicketState.isTerminal] at h
  | succeeded c => cases o <;> rfl
  | abandoned c => cases o <;> rfl

theorem attempt_retry_fires_terminal {m : ℕ} {s : TicketState}
    (h : s.isTerminal = true) (o : Bool) : attempt_retry_fires m s o = false := by
  cases s with
  | waiting c => simp [TicketState.isTerminal] at h
  | succeeded c => cases o <;> rfl
  | abandoned c => cases o <;> rfl

theorem runTicket_terminal {m : ℕ} {s : TicketState} (h : s.isTerminal = true) :
    ∀ os : List Bool, runTicket m s os = s := by
  intro os
  induction os with
  | nil => rfl
  | cons o os ih => simp [runTicket, attempt_retry_terminal h, ih]

theorem countFailureCallbacks_terminal {m : ℕ} {s : TicketState}
    (h : s.isTerminal = true) :
    ∀ os : List Bool, countFailureCallbacks m s os = 0 := by
  intro os
  induction os with
  | nil => rfl
  | cons o os ih =>
    simp [countFailureCallbacks, attempt_retry_fires_terminal h,
      attempt_retry_terminal h, ih]

theorem runTicket_all_fail {m : ℕ} :
    ∀ (os : List Bool) (c : ℕ), c < m → (∀ o ∈ os, o = false) →
      m ≤ c + os.length →
      runTicket m (.waiting c) os = .abandoned m ∧
        countFailureCallbacks m (.waiting c) os = 1 := by
  intro os
  induction os with
  | nil =>
    intro c hc _ hlen
    simp only [List.length_nil, Nat.add_zero] at hlen
    omega
  | cons o os ih =>
    intro c hc hfail hlen
    obtain rfl : o = false := hfail o (List.mem_cons_self o os)
    by_cases hm : c + 1 ≥ m
    · have hcm : c + 1 = m := by omega
      have hstep : attempt_retry m (.waiting c) false = .abandoned m := by
        simp [attempt_retry, if_pos hm, hcm]
      have hfires : attempt_retry_fires m (.waiting c) false = true := by
        simp [attempt_retry_fires, hm]
      constructor
      · rw [runTicket, hstep]
        exact runTicket_terminal (s := TicketState.abandoned m) rfl os
      · rw [countFailureCallbacks, hfires, hstep]
        simp [countFailureCallbacks_terminal (s := TicketState.abandoned m) rfl os]
    · have hstep : attempt_retry m (.waiting c) false = .waiting (c + 1) := by
        simp [attempt_retry, if_neg hm]
      have hfires : attempt_retry_fires m (.waiting c) false = false := by
        simp [attempt_retry_fires]
        omega
      have hnext := ih (c + 1) (by omega)
        (fun o ho => hfail o (List.mem_cons_of_mem _ ho))
        (by simp only [List.length_cons] at hlen; omega)
      constructor
      · rw [runTicket, hstep]
        exact hnext.1
      · rw [countFailureCallbacks, hfires, hstep]
        simp [hnext.2]

/-- C4: when every delivery attempt fails and at least `max_retries` attempts
are processed, the ticket is marked abandoned (with attempt count exactly
`max_retries`) and the registered failure callback fires exactly once over the
whole run; in particular the ticket is never attempted again after
abandonment, however many further outcomes follow. -/
theorem retry_abandonment_callback_once (m : ℕ) (os : List Bool)
    (hm : 1 ≤ m) (hfail : ∀ o ∈ os, o = false) (hlen : m ≤ os.length) :
    runTicket m (.waiting 0) os = .abandoned m ∧
      countFailureCallbacks m (.waiting 0) os = 1 :=
  runTicket_all_fail os 0 (by omega) hfail (by omega)

/-- Witness for C4 with `max_retries = 2` and three failing attempts: the
third outcome is processed after abandonment and changes nothing. -/
theorem retry_abandonment_callback_once_witness :
    (1 ≤ 2 ∧ (∀ o ∈ [false, false, false], o = false)
      ∧ 2 ≤ [false, false, false].length)
    ∧ (runTicket 2 (.waiting 0) [false, false, false] = .abandoned 2
        ∧ countFailureCallbacks 2 (.waiting 0) [false, false, false] = 1) :=
  ⟨⟨by norm_num, by decide, by decide⟩,
    retry_abandonment_callback_once 2 [false, false, false] (by norm_num)
      (by decide) (by decide)⟩

/-- The invariant preserved by `_attempt_retry`: a queued (waiting) ticket has
strictly fewer than `max_retries` recorded attempts, a terminal one at most
`max_retries`. -/
def TicketState.inv (m : ℕ) : TicketState → Prop
  | .waiting c => c < m
  | .succeeded c => c ≤ m
  | .abandoned c => c ≤ m

theorem attempt_retry_inv {m : ℕ} {s : TicketState} (h : s.inv m) (o : Bool) :
    (attempt_retry m s o).inv m := by
  cases s with
  | waiting c =>
    have hc : c < m := h
    cases o with
    | true =>
      show c + 1 ≤ m
      omega
    | false =>
      by_cases hm : c + 1 ≥ m
      · have hstep : attempt_retry m (.waiting c) false = .abandoned (c + 1) := by
          simp [attempt_retry, if_pos hm]
        rw [hstep]
        show c + 1 ≤ m
        omega
      · have hstep : attempt_retry m (.waiting c) false = .waiting (c + 1) := by
          simp [attempt_retry, if_neg hm]
        rw [hstep]
        show c + 1 < m
        omega
  | succeeded c => exact h
  | abandoned c => exact h

theorem runTicket_inv {m : ℕ} :
    ∀ (os : List Bool) (s : TicketState), s.inv m → (runTicket m s os).inv m := by
  intro os
  induction os with
  | nil => exact fun s h => h
  | cons o os ih => exact fun s h => ih _ (attempt_retry_inv h o)

/-- C5: starting from a freshly enqueued ticket (attempt count 0), after any
sequence of delivery-attempt outcomes the recorded attempt count never exceeds
`max_retries`; and a ticket in a terminal state (succeeded or abandoned) is
never attempted again — any further outcomes leave it unchanged, so it never
re-enters the pending/waiting queues. -/
theorem retry_attempt_count_invariant (m : ℕ) (os : List Bool) (hm : 1 ≤ m) :
    (runTicket m (.waiting 0) os).count ≤ m
    ∧ (∀ (s : TicketState), s.isTerminal = true →
        ∀ os' : List Bool, runTicket m s os' = s) := by
  constructor
  · have h := runTicket_inv os (TicketState.waiting 0) (by simpa [TicketState.inv] using hm)
    cases hs : runTicket m (.waiting 0) os with
    | waiting c => rw [hs] at h; exact le_of_lt h
    | succeeded c => rw [hs] at h; exact h
    | abandoned c => rw [hs] at h; exact h
  · exact fun s hs os' => runTicket_terminal hs os'

/-- Witness for C5 with `max_retries = 3` and outcomes fail-fail-success. -/
theorem retry_attempt_count_invariant_witness :
    1 ≤ 3
    ∧ ((runTicket 3 (.waiting 0) [false, false, true]).count ≤ 3
      ∧ (∀ (s : TicketState), s.isTerminal = true →
          ∀ os' : List Bool, runTicket 3 s os' = s)) :=
  ⟨by norm_num,
    retry_attempt_count_invariant 3 [false, false, true] (by norm_num)⟩

/-! ## Offline queue (src/ChatServer1/models/offline_queue.py)

Per-recipient mailboxes are `deque(maxlen=max_messages_per_user)`; appending
to a full bounded deque discards entries from the opposite (oldest) end, i.e.
the deque keeps the last `maxlen` appended entries.
`store_message_for_user` (lines 73-119) appends one wrapped entry.
`deliver_offline_messages` (lines 145-238) returns `[]` at once when the
recipient has no queued messages or is not flagged `is_online` by the user
manager; otherwise it pops every entry, counting entries past
`expiry_timestamp` as expired and collecting the rest in order as delivered,
and invokes the delivery callback when a callback is set and something was
delivered.  (The per-entry `try` block performs only dictionary updates and
list appends, none of which raises, so `failed_deliveries` stays empty and
nothing is re-queued.)  `peek_user_messages` (lines 292-321) previews the
non-expired entries among the first `limit` queued ones without removing
anything. -/

/-- A stored mailbox entry, reduced to the fields the queue logic reads: an
abstract payload identifier and the `expiry_timestamp` set at store time. -/
structure OfflineMsg where
  payload : ℕ
  expiryTimestamp : ℚ
deriving DecidableEq, Repr

/-- Appending to a `deque(maxlen=m)`: keep the last `m` elements of the
extended sequence (a full bounded deque discards the oldest entry on
append). -/
def appendMaxlen (m : ℕ) (q : List OfflineMsg) (x : OfflineMsg) :
    List OfflineMsg :=
  (q ++ [x]).drop (q.length + 1 - m)

/-- A sequence of `store_message_for_user` calls for one recipient, starting
from an empty mailbox. -/
def store_messages (m : ℕ) (msgs : List OfflineMsg) : List OfflineMsg :=
  msgs.foldl (appendMaxlen m) []

theorem appendMaxlen_length (m : ℕ) (q : List OfflineMsg) (x : OfflineMsg) :
    (appendMaxlen m q x).length ≤ m := by
  simp only [appendMaxlen, List.length_drop, List.length_append,
    List.length_cons, List.length_nil]
  omega

theorem foldl_appendMaxlen_length (m : ℕ) :
    ∀ (msgs : List OfflineMsg) (q : List OfflineMsg), q.length ≤ m →
      (msgs.foldl (appendMaxlen m) q).length ≤ m := by
  intro msgs
  induction msgs with
  | nil => exact fun q h => h
  | cons x xs ih =>
    exact fun q _ => ih (appendMaxlen m q x) (appendMaxlen_length m q x)

/-- C6: a recipient's mailbox never holds more than `max_messages_per_user`
entries, whatever sequence of stores happens; and a store into a mailbox
already at capacity evicts exactly one entry, the oldest (leftmost) one. -/
theorem offline_mailbox_bounded_eviction (m : ℕ) :
    (∀ msgs : List OfflineMsg, (store_messages m msgs).length ≤ m)
    ∧ (∀ (q : List OfflineMsg) (x : OfflineMsg), q.length = m → 1 ≤ m →
        appendMaxlen m q x = q.tail ++ [x]) := by
  constructor
  · intro msgs
    exact foldl_appendMaxlen_length m msgs [] (by simp)
  · intro q x hq hm
    cases q with
    | nil => simp at hq; omega
    | cons a q' =>
      simp only [appendMaxlen, List.length_cons, List.tail_cons]
      have hlen : q'.length + 1 = m := by simpa using hq
      have hdrop : q'.length + 1 + 1 - m = 1 := by omega
      rw [hdrop]
      simp

/-- Witness for C6 with capacity 2: three stores keep only the last two
entries, and storing into the full mailbox `[e₁, e₂]` evicts exactly `e₁`. -/
theorem offline_mailbox_bounded_eviction_witness :
    ((store_messages 2 [⟨1, 5⟩, ⟨2, 5⟩, ⟨3, 5⟩]).length ≤ 2)
    ∧ appendMaxlen 2 [⟨1, 5⟩, ⟨2, 5⟩] ⟨3, 5⟩ = [⟨2, 5⟩, ⟨3, 5⟩] :=
  ⟨(offline_mailbox_bounded_eviction 2).1 [⟨1, 5⟩, ⟨2, 5⟩, ⟨3, 5⟩],
    (offline_mailbox_bounded_eviction 2).2 [⟨1, 5⟩, ⟨2, 5⟩] ⟨3, 5⟩ (by simp)
      (by norm_num)⟩

/-- The result of `deliver_offline_messages`: the returned delivered list, the
recipient's queue afterwards, how much `total_messages_expired` grew, and
whether the delivery callback was invoked. -/
structure DeliverResult where
  delivered : List OfflineMsg
  queueAfter : List OfflineMsg
  expiredCount : ℕ
  callbackInvoked : Bool
deriving DecidableEq, Repr

/-- The `while user_queue:` drain loop of `deliver_offline_messages` (lines
173-213): pop each entry left to right; an entry with
`time.time() > expiry_timestamp` is counted as expired and dropped, any other
entry is appended to `delivered_messages`. -/
def drainLoop (now : ℚ) : List OfflineMsg → List OfflineMsg × ℕ
  | [] => ([], 0)
  | msg :: rest =>
    let r := drainLoop now rest
    if now > msg.expiryTimestamp then (r.1, r.2 + 1) else (msg :: r.1, r.2)

/-- `OfflineQueue.deliver_offline_messages` for one recipient: return `[]`
untouched when the queue is empty; return `[]` untouched when the user
manager does not flag the recipient `is_online`; otherwise drain the whole
queue, and invoke the delivery callback exactly when a callback is registered
and the delivered list is non-empty. -/
def deliver_offline_messages (isOnline hasCallback : Bool) (now : ℚ)
    (q : List OfflineMsg) : DeliverResult :=
  if q.isEmpty then ⟨[], q, 0, false⟩
  else if !isOnline then ⟨[], q, 0, false⟩
  else
    let r := drainLoop now q
    ⟨r.1, [], r.2, hasCallback && !r.1.isEmpty⟩

/-- `OfflineQueue.peek_user_messages`: preview the non-expired entries among
the first `limit` queued entries, without mutating the queue. -/
def peek_user_messages (now : ℚ) (limit : ℕ) (q : List OfflineMsg) :
    List OfflineMsg :=
  (q.take limit).filter (fun msg => decide (now ≤ msg.expiryTimestamp))

theorem drainLoop_spec (now : ℚ) : ∀ q : List OfflineMsg,
    drainLoop now q
      = (q.filter (fun msg => decide (now ≤ msg.expiryTimestamp)),
          (q.filter (fun msg => decide (msg.expiryTimestamp < now))).length) := by
  intro q
  induction q with
  | nil => rfl
  | cons msg rest ih =>
    simp only [drainLoop, ih]
    by_cases h : now > msg.expiryTimestamp
    · rw [if_pos h]
      have h₁ : (decide (now ≤ msg.expiryTimestamp)) = false := by
        simpa using not_le_of_lt h
      have h₂ : (decide (msg.expiryTimestamp < now)) = true := by simpa using h
      simp [List.filter_cons, h₁, h₂]
    · rw [if_neg h]
      have h₁ : (decide (now ≤ msg.expiryTimestamp)) = true := by
        simpa using le_of_not_lt h
      have h₂ : (decide (msg.expiryTimestamp < now)) = false := by simpa using h
      simp [List.filter_cons, h₁, h₂]

/-- C7: for an online recipient with a non-empty backlog,
`deliver_offline_messages` discards exactly the entries whose expiry has
passed (counting each in the expired statistic and never returning it),
returns exactly the non-expired entries in FIFO storage order (the order
filter preserves), and invokes the delivery callback exactly when a callback
is registered and something was delivered. -/
theorem offline_deliver_expiry_fifo (hasCb : Bool) (now : ℚ)
    (q : List OfflineMsg) (hq : q ≠ []) :
    (deliver_offline_messages true hasCb now q).delivered
        = q.filter (fun msg => decide (now ≤ msg.expiryTimestamp))
    ∧ (deliver_offline_messages true hasCb now q).expiredCount
        = (q.filter (fun msg => decide (msg.expiryTimestamp < now))).length
    ∧ (∀ msg ∈ (deliver_offline_messages true hasCb now q).delivered,
        now ≤ msg.expiryTimestamp)
    ∧ (deliver_offline_messages true hasCb now q).callbackInvoked
        = (hasCb
            && !(deliver_offline_messages true hasCb now q).delivered.isEmpty) := by
  have hne : q.isEmpty = false := by
    simpa [List.isEmpty_iff] using hq
  have hd : deliver_offline_messages true hasCb now q
      = ⟨(drainLoop now q).1, [], (drainLoop now q).2,
          hasCb && !(drainLoop now q).1.isEmpty⟩ := by
    simp [deliver_offline_messages, hne]
  rw [hd, drainLoop_spec]
  refine ⟨rfl, rfl, ?_, rfl⟩
  intro msg hmsg
  simpa using List.of_mem_filter hmsg

/-- Witness for C7: two messages for an online user at `now = 0`, one expiring
at 10 and one already expired at -1: the live one is delivered, the stale one
is counted expired, and the callback fires. -/
theorem offline_deliver_expiry_fifo_witness :
    ([⟨1, 10⟩, ⟨2, -1⟩] : List OfflineMsg) ≠ []
    ∧ ((deliver_offline_messages true true 0 [⟨1, 10⟩, ⟨2, -1⟩]).delivered
        = List.filter (fun msg : OfflineMsg => decide ((0 : ℚ) ≤ msg.expiryTimestamp))
            [⟨1, 10⟩, ⟨2, -1⟩]
      ∧ (deliver_offline_messages true true 0 [⟨1, 10⟩, ⟨2, -1⟩]).expiredCount
        = (List.filter (fun msg : OfflineMsg => decide (msg.expiryTimestamp < (0 : ℚ)))
            [⟨1, 10⟩, ⟨2, -1⟩]).length
      ∧ (∀ msg ∈ (deliver_offline_messages true true 0
            [⟨1, 10⟩, ⟨2, -1⟩]).delivered, (0 : ℚ) ≤ msg.expiryTimestamp)
      ∧ (deliver_offline_messages true true 0
            [⟨1, 10⟩, ⟨2, -1⟩]).callbackInvoked
        = (true && !(deliver_offline_messages true true 0
            [⟨1, 10⟩, ⟨2, -1⟩]).delivered.isEmpty)) :=
  ⟨by simp, offline_deliver_expiry_fifo true 0 [⟨1, 10⟩, ⟨2, -1⟩] (by simp)⟩

/-- C8 counterexample: for a recipient the user manager does not flag
`is_online`, `deliver_offline_messages` is a no-op, so an immediately
following `peek_user_messages` still returns the stored (non-expired) entry:
the drain-then-peek result is not empty for every backlog state. -/
theorem deliver_then_peek_offline_counterexample :
    peek_user_messages 0 5
        (deliver_offline_messages false true 0 [⟨1, 10⟩]).queueAfter ≠ [] := by
  simp [deliver_offline_messages, peek_user_messages]

/-- C8 amended: for every recipient the user manager flags `is_online`,
`deliver_offline_messages` followed immediately by `peek_user_messages` (at
any time and preview limit) yields an empty list: the drain removes every
entry, so nothing can be delivered twice in one drain cycle.  (For a
recipient not flagged online the drain is a no-op and the peek can still see
entries, per the counterexample.) -/
theorem deliver_then_peek_empty (hasCb : Bool) (now nowPeek : ℚ) (limit : ℕ)
    (q : List OfflineMsg) :
    peek_user_messages nowPeek limit
      (deliver_offline_messages true hasCb now q).queueAfter = [] := by
  by_cases hq : q.isEmpty
  · have : q = [] := List.isEmpty_iff.mp hq
    subst this
    simp [deliver_offline_messages, peek_user_messages]
  · have hne : q.isEmpty = false := by simpa using hq
    simp [deliver_offline_messages, hne, peek_user_messages]

/-- C10: `deliver_offline_messages` delivers only to recipients the supplied
user manager flags `is_online`: for a recipient not flagged online the call
returns an empty list and leaves the backlog completely unchanged — nothing
is delivered, counted expired, or removed, and no callback fires. -/
theorem deliver_requires_online (hasCb : Bool) (now : ℚ)
    (q : List OfflineMsg) :
    deliver_offline_messages false hasCb now q = ⟨[], q, 0, false⟩ := by
  by_cases hq : q.isEmpty
  · simp [deliver_offline_messages, hq]
  · have hne : q.isEmpty = false := by simpa using hq
    simp [deliver_offline_messages, hne]

/-! ## Configuration updates (src/ChatServer1/models: offline_queue.py
`update_config` lines 625-652, retry_queue.py `update_config` lines 402-426,
batch_queue.py `update_config` lines 241-261)

Each `update_config` clamps every supplied value with `max(floor, value)`
(sequentially: the retry `max_delay` floor is the just-updated
`initial_delay`, the batch `max_batch_size` floor is the just-updated
`min_batch_size`) and assigns the result; supplied values are `ℤ` for Python
int fields and `ℚ` for float fields. -/

/-- The `OfflineQueue` configuration fields touched by its `update_config`. -/
structure OfflineConfig where
  maxMessagesPerUser : ℤ
  messageExpirySeconds : ℤ
  autoCleanupInterval : ℤ
deriving DecidableEq, Repr

/-- `OfflineQueue.update_config`: each supplied field is clamped, not
rejected (`max(10, v)`, `max(1, hours) * 3600`, `max(60, v)`). -/
def offline_update_config (cfg : OfflineConfig)
    (maxMessagesPerUser messageExpiryHours autoCleanupInterval : Option ℤ) :
    OfflineConfig where
  maxMessagesPerUser :=
    match maxMessagesPerUser with
    | some v => max 10 v
    | none => cfg.maxMessagesPerUser
  messageExpirySeconds :=
    match messageExpiryHours with
    | some v => max 1 v * 3600
    | none => cfg.messageExpirySeconds
  autoCleanupInterval :=
    match autoCleanupInterval with
    | some v => max 60 v
    | none => cfg.autoCleanupInterval

/-- The `RetryQueue` (ChatServer1) configuration fields. -/
structure RetryConfig where
  maxRetries : ℤ
  initialDelay : ℚ
  maxDelay : ℚ
  backoffMultiplier : ℚ
deriving DecidableEq, Repr

/-- `RetryQueue.update_config`: sequential clamped assignments
(`max(1, v)`, `max(0.1, v)`, `max(self.initial_delay, v)` against the
already-updated initial delay, `max(1.0, v)`). -/
def retry_update_config (cfg : RetryConfig) (maxRetries : Option ℤ)
    (initialDelay maxDelay backoffMultiplier : Option ℚ) : RetryConfig :=
  let mr := match maxRetries with
    | some v => max 1 v
    | none => cfg.maxRetries
  let idl := match initialDelay with
    | some v => max (1 / 10) v
    | none => cfg.initialDelay
  let mdl := match maxDelay with
    | some v => max idl v
    | none => cfg.maxDelay
  let bm := match backoffMultiplier with
    | some v => max 1 v
    | none => cfg.backoffMultiplier
  ⟨mr, idl, mdl, bm⟩

/-- The `BatchQueue` (ChatServer1) configuration fields. -/
structure BatchConfig where
  minBatchSize : ℤ
  maxBatchSize : ℤ
  maxWaitTime : ℚ
deriving DecidableEq, Repr

/-- `BatchQueue.update_config`: sequential clamped assignments (`max(1, v)`,
`max(self.min_batch_size, v)` against the already-updated minimum,
`max(0.1, v)`). -/
def batch_update_config (cfg : BatchConfig)
    (minBatchSize maxBatchSize : Option ℤ) (maxWaitTime : Option ℚ) :
    BatchConfig :=
  let mn := match minBatchSize with
    | some v => max 1 v
    | none => cfg.minBatchSize
  let mx := match maxBatchSize with
    | some v => max mn v
    | none => cfg.maxBatchSize
  let wt := match maxWaitTime with
    | some v => max (1 / 10) v
    | none => cfg.maxWaitTime
  ⟨mn, mx, wt⟩

/-- C9 counterexample: an `update_config` call carrying the bad value
`max_messages_per_user = 0` on an `OfflineQueue` configured with capacity 100
is not rejected with the configuration unchanged — the capacity is silently
clamped to 10, a different configuration. -/
theorem update_config_clamps_counterexample :
    offline_update_config ⟨100, 86400, 300⟩ (some 0) none none
      ≠ ⟨100, 86400, 300⟩ := by
  decide

/-- C9 amended: `update_config` calls carrying bad configuration values are
not rejected; each supplied value is clamped to its safety floor and
assigned, so after any call the configuration satisfies
`maxMessagesPerUser ≥ 10`, `messageExpirySeconds ≥ 3600`,
`autoCleanupInterval ≥ 60`, `maxRetries ≥ 1`, `initialDelay ≥ 0.1`,
`maxDelay ≥ initialDelay`, `backoffMultiplier ≥ 1`, `minBatchSize ≥ 1`,
`maxBatchSize ≥ minBatchSize`, and `maxWaitTime ≥ 0.1`, whatever values were
supplied. -/
theorem update_config_clamps_to_floors :
    (∀ (cfg : OfflineConfig) (a b c : ℤ),
        10 ≤ (offline_update_config cfg (some a) (some b) (some c)).maxMessagesPerUser
        ∧ 3600 ≤ (offline_update_config cfg (some a) (some b) (some c)).messageExpirySeconds
        ∧ 60 ≤ (offline_update_config cfg (some a) (some b) (some c)).autoCleanupInterval)
    ∧ (∀ (cfg : RetryConfig) (a : ℤ) (b c d : ℚ),
        1 ≤ (retry_update_config cfg (some a) (some b) (some c) (some d)).maxRetries
        ∧ 1 / 10 ≤ (retry_update_config cfg (some a) (some b) (some c) (some d)).initialDelay
        ∧ (retry_update_config cfg (some a) (some b) (some c) (some d)).initialDelay
            ≤ (retry_update_config cfg (some a) (some b) (some c) (some d)).maxDelay
        ∧ 1 ≤ (retry_update_config cfg (some a) (some b) (some c) (some d)).backoffMultiplier)
    ∧ (∀ (cfg : BatchConfig) (a b : ℤ) (c : ℚ),
        1 ≤ (batch_update_config cfg (some a) (some b) (some c)).minBatchSize
        ∧ (batch_update_config cfg (some a) (some b) (some c)).minBatchSize
            ≤ (batch_update_config cfg (some a) (some b) (some c)).maxBatchSize
        ∧ 1 / 10 ≤ (batch_update_config cfg (some a) (some b) (some c)).maxWaitTime) := by
  refine ⟨?_, ?_, ?_⟩
  · intro cfg a b c
    refine ⟨le_max_left 10 a, ?_, le_max_left 60 c⟩
    have h : (1 : ℤ) ≤ max 1 b := le_max_left 1 b
    simp only [offline_update_config]
    nlinarith
  · intro cfg a b c d
    exact ⟨le_max_left 1 a, le_max_left (1 / 10) b, le_max_left _ c,
      le_max_left 1 d⟩
  · intro cfg a b c
    exact ⟨le_max_left 1 a, le_max_left _ b, le_max_left (1 / 10) c⟩

end Pdsa
